import Mathlib

/-!
Shallow embedding of the YomiMark content script (src/content/content.js).

JS strings are modelled as their sequences of Unicode code points
(`List Char`).  All character classes involved (kanji blocks, the
convertible katakana range, the characters escaped by HTML text-node
serialization) lie inside the Basic Multilingual Plane and outside the
surrogate range, so the UTF-16 code-unit view used by the JS regexes and
the code-point view used here agree on every test and replacement the
code performs.
-/

/-- A JS string, modelled as its sequence of Unicode code points. -/
abbrev JSStr := List Char

/-- Membership of a single character in the character class of
`KANJI_REGEX = /[一-鿿㐀-䶿]/` (CJK Unified Ideographs
plus Extension A). -/
def isKanjiChar (c : Char) : Bool :=
  (0x4E00 ≤ c.toNat && c.toNat ≤ 0x9FFF) || (0x3400 ≤ c.toNat && c.toNat ≤ 0x4DBF)

/-- `containsKanji` from src/content/content.js: `KANJI_REGEX.test(str)`,
true iff some character of the string is in the class. -/
def containsKanji (s : JSStr) : Bool :=
  s.any isKanjiChar

/-- Membership in the character class of the replace regex
`/[ァ-ヶ]/g`: the katakana letters with a direct hiragana
counterpart. -/
def isConvertibleKatakana (c : Char) : Bool :=
  (0x30A1 ≤ c.toNat) && (c.toNat ≤ 0x30F6)

/-- `katakanaToHiragana` from src/content/content.js:
`str.replace(/[ァ-ヶ]/g, ch => String.fromCharCode(ch.charCodeAt(0) - 0x60))`.
The global single-character-class replace scans the string left to right
and substitutes each matched character independently. -/
def katakanaToHiragana : JSStr → JSStr
  | [] => []
  | c :: cs =>
    (if isConvertibleKatakana c then Char.ofNat (c.toNat - 0x60) else c)
      :: katakanaToHiragana cs

/-- How the browser serializes one character of a DOM text node when the
parent's `innerHTML` is read back (the mechanism `escapeHTML` in
src/content/content.js delegates to).  Per the HTML fragment
serialization algorithm, text-node data escapes `&`, `<`, `>` and
U+00A0 as named entity references; every other character is emitted
verbatim. -/
def escapeChar (c : Char) : JSStr :=
  if c = '&' then ("&amp;".data)
  else if c = '<' then ("&lt;".data)
  else if c = '>' then ("&gt;".data)
  else if c = '\u00A0' then ("&nbsp;".data)
  else [c]

/-- `escapeHTML` from src/content/content.js: builds a text node holding
`str` and reads back its serialized form, i.e. the concatenation of the
per-character escapes. -/
def escapeHTML : JSStr → JSStr
  | [] => []
  | c :: cs => escapeChar c ++ escapeHTML cs

/-- A morphological token as consumed by `buildRubyHTML`: kuromoji's
`surface_form` is always a string, `reading` is a string or absent
(`undefined`), modelled as `Option`. -/
structure Token where
  surface_form : JSStr
  reading : Option JSStr
deriving DecidableEq

/-- The body of the `for` loop of `buildRubyHTML` (src/content/content.js
lines 54-80): given the markup accumulated so far and the current token,
append this token's contribution.  The JS guard `reading` is truthy iff
the reading is present and non-empty. -/
def buildRubyHTMLStep (html : JSStr) (token : Token) : JSStr :=
  let surface := token.surface_form
  match token.reading with
  | some reading =>
    if containsKanji surface && !reading.isEmpty then
      let hiragana := katakanaToHiragana reading
      if hiragana ≠ surface then
        html ++ ("<ruby class=\"yomimark-ruby\">".data) ++ escapeHTML surface
          ++ ("<rp>(</rp><rt>".data) ++ escapeHTML hiragana
          ++ ("</rt><rp>)</rp></ruby>".data)
      else
        html ++ escapeHTML surface
    else
      html ++ escapeHTML surface
  | none => html ++ escapeHTML surface

/-- `buildRubyHTML` from src/content/content.js: starts from the empty
string and runs the loop body over the tokens in order. -/
def buildRubyHTML (tokens : List Token) : JSStr :=
  tokens.foldl buildRubyHTMLStep []

/-- The per-token output segment as the spec words it (§4.3 steps 1-4):
no kanji in the surface, or an absent or empty reading, or a normalized
reading identical to the surface, yield the escaped surface alone;
otherwise a ruby pairing of escaped surface and escaped normalized
reading with the parenthesized fallback. -/
def specSegment (token : Token) : JSStr :=
  if containsKanji token.surface_form = false then
    escapeHTML token.surface_form
  else
    match token.reading with
    | none => escapeHTML token.surface_form
    | some reading =>
      if reading = [] then
        escapeHTML token.surface_form
      else
        let hiragana := katakanaToHiragana reading
        if hiragana = token.surface_form then
          escapeHTML token.surface_form
        else
          ("<ruby class=\"yomimark-ruby\">".data) ++ escapeHTML token.surface_form
            ++ ("<rp>(</rp><rt>".data) ++ escapeHTML hiragana
            ++ ("</rt><rp>)</rp></ruby>".data)

/-- An abstract handle to a built kuromoji tokenizer (the `built` value the
library passes to the build callback); the `id` only serves to distinguish
distinct handles. -/
structure Tokenizer where
  id : Nat
deriving DecidableEq

/-- An abstract initialization error (the `err` value the library passes to
the build callback). -/
abbrev LoadError := Nat

/-- The value with which a caller's promise eventually settles: fulfilled
with whatever was passed to `resolve` (the module variable `tokenizer`,
which may still be null), or rejected with an error. -/
inductive Settled where
  | fulfilled (tk : Option Tokenizer)
  | rejected (e : LoadError)
deriving DecidableEq

/-- The module-level mutable state read and written by `initTokenizer`
(src/content/content.js lines 10-11): `let tokenizer = null` and
`let tokenizerLoading = false`. -/
structure ContentState where
  tokenizer : Option Tokenizer
  tokenizerLoading : Bool
deriving DecidableEq

/-- The state when the content script starts. -/
def initialContentState : ContentState :=
  { tokenizer := none, tokenizerLoading := false }

/-- What the synchronous prefix of one `initTokenizer` call does: either it
returns `Promise.resolve(tokenizer)` at once, or it marks loading and starts
one underlying dictionary load whose callback will settle the returned
promise. -/
inductive InitStep where
  | resolveNow (tk : Option Tokenizer)
  | startLoad
deriving DecidableEq

/-- `initTokenizer` from src/content/content.js lines 32-51, synchronous
prefix: `if (tokenizer || tokenizerLoading) return Promise.resolve(tokenizer);
tokenizerLoading = true;` then start the kuromoji build. -/
def initTokenizer (s : ContentState) : ContentState × InitStep :=
  if s.tokenizer.isSome || s.tokenizerLoading then
    (s, InitStep.resolveNow s.tokenizer)
  else
    ({ s with tokenizerLoading := true }, InitStep.startLoad)

/-- The kuromoji build callback inside `initTokenizer`: it first clears
`tokenizerLoading`; on error it rejects, leaving `tokenizer` untouched; on
success it stores the built tokenizer and resolves with it. -/
def buildCallback (s : ContentState) (outcome : Except LoadError Tokenizer) :
    ContentState × Settled :=
  let s1 := { s with tokenizerLoading := false }
  match outcome with
  | Except.error e => (s1, Settled.rejected e)
  | Except.ok built => ({ s1 with tokenizer := some built }, Settled.fulfilled (some built))

/-- Number of underlying dictionary loads a call's synchronous prefix starts. -/
def loadsStarted : InitStep → Nat
  | InitStep.resolveNow _ => 0
  | InitStep.startLoad => 1

/-- How a caller's promise settles, given the settlement produced by the
in-flight build callback: a call that returned `Promise.resolve(tokenizer)`
fulfills immediately with that value; a call that started the load settles
with the callback's outcome. -/
def settleOf (step : InitStep) (cb : Settled) : Settled :=
  match step with
  | InitStep.resolveNow tk => Settled.fulfilled tk
  | InitStep.startLoad => cb

/-- The concurrent-initialization schedule of spec Scenario 6: two
`initTokenizer` calls from the fresh state, the second arriving while the
first call's dictionary load is still in flight; afterwards the load
completes with `outcome`.  Returns caller 1's settlement, caller 2's
settlement, and how many underlying loads were started. -/
def concurrentInitScenario (outcome : Except LoadError Tokenizer) :
    Settled × Settled × Nat :=
  let p1 := initTokenizer initialContentState
  let p2 := initTokenizer p1.1
  let cb := buildCallback p2.1 outcome
  (settleOf p1.2 cb.2, settleOf p2.2 cb.2, loadsStarted p1.2 + loadsStarted p2.2)

/-- The effect of one `annotateSelection` run on the document: either a
wrapper with the given inner markup was inserted in place of the selection,
or the document was left unchanged. -/
inductive AnnotateOutcome where
  | inserted (markup : JSStr)
  | noChange
deriving DecidableEq

/-- `annotateSelection` from src/content/content.js lines 89-130, abstracted
over the DOM: the promise chain inserts
`buildRubyHTML(tk.tokenize(selectedText))` only in the fulfillment handler;
if `initTokenizer`'s promise rejects, the `.catch` handler only logs and
removes the floating button, inserting nothing; if it fulfills with null
(see `initTokenizer`), `tk.tokenize` throws before any DOM mutation and the
`.catch` handler likewise inserts nothing.  `tokenize` is the external
kuromoji capability of an already-built handle. -/
def annotateSelection (tokenize : Tokenizer → JSStr → List Token)
    (initResult : Settled) (selectedText : JSStr) : AnnotateOutcome :=
  match initResult with
  | Settled.fulfilled (some tk) =>
      AnnotateOutcome.inserted (buildRubyHTML (tokenize tk selectedText))
  | Settled.fulfilled none => AnnotateOutcome.noChange
  | Settled.rejected _ => AnnotateOutcome.noChange

theorem buildRubyHTMLStep_eq (html : JSStr) (t : Token) :
    buildRubyHTMLStep html t = html ++ specSegment t := by
  unfold buildRubyHTMLStep specSegment
  cases h : t.reading with
  | none =>
    by_cases hk : containsKanji t.surface_form = false <;> simp [hk]
  | some r =>
    cases r with
    | nil =>
      by_cases hk : containsKanji t.surface_form = false <;>
        simp [hk, List.isEmpty]
    | cons c cs =>
      by_cases hk : containsKanji t.surface_form = false
      · simp [hk, List.isEmpty]
      · have hk' : containsKanji t.surface_form = true := by
          revert hk; cases containsKanji t.surface_form <;> simp
        by_cases hs : katakanaToHiragana (c :: cs) = t.surface_form <;>
          simp [hk, hk', hs, List.isEmpty, List.append_assoc]

theorem buildRubyHTML_eq_join_aux (tokens : List Token) :
    ∀ acc : JSStr,
      tokens.foldl buildRubyHTMLStep acc = acc ++ (tokens.map specSegment).flatten := by
  induction tokens with
  | nil => intro acc; simp
  | cons t ts ih =>
    intro acc
    simp only [List.foldl_cons, List.map_cons, List.flatten_cons]
    rw [buildRubyHTMLStep_eq, ih, List.append_assoc]

theorem buildRubyHTML_eq_join (tokens : List Token) :
    buildRubyHTML tokens = (tokens.map specSegment).flatten := by
  simpa [buildRubyHTML] using buildRubyHTML_eq_join_aux tokens []

theorem isConvertibleKatakana_iff (c : Char) :
    isConvertibleKatakana c = true ↔ 0x30A1 ≤ c.toNat ∧ c.toNat ≤ 0x30F6 := by
  simp [isConvertibleKatakana]

theorem toNat_ofNat_of_lt {n : Nat} (h : n < 0xD800) : (Char.ofNat n).toNat = n := by
  have hv : n.isValidChar := Or.inl h
  rw [Char.ofNat, dif_pos hv]
  simp [Char.ofNatAux, Char.toNat, UInt32.toNat, BitVec.toNat_ofNatLt]

theorem katakanaToHiragana_eq_map (s : JSStr) :
    katakanaToHiragana s =
      s.map (fun c => if isConvertibleKatakana c then Char.ofNat (c.toNat - 0x60) else c) := by
  induction s with
  | nil => rfl
  | cons c cs ih => simp [katakanaToHiragana, ih]

theorem shifted_not_convertible (c : Char) (h : isConvertibleKatakana c = true) :
    isConvertibleKatakana (Char.ofNat (c.toNat - 0x60)) = false := by
  have h' := (isConvertibleKatakana_iff c).mp h
  have hlt : c.toNat - 0x60 < 0xD800 := by omega
  have hn := toNat_ofNat_of_lt hlt
  simp only [isConvertibleKatakana, hn]
  have : ¬ (0x30A1 ≤ c.toNat - 0x60) := by omega
  simp [this]

/-- Claim C1: `buildRubyHTML` returns the concatenation, in input order, of
exactly one segment per token, the segment being the escaped surface alone
when the surface has no kanji, the reading is absent or empty, or the
hiragana-normalized reading equals the unnormalized surface, and otherwise
the ruby pairing of escaped surface and escaped normalized reading with the
parenthesized plain-text fallback (`specSegment` states the spec's wording). -/
theorem buildRubyHTML_segments_in_order (tokens : List Token) :
    buildRubyHTML tokens = (tokens.map specSegment).flatten :=
  buildRubyHTML_eq_join tokens

theorem angle_not_mem_escapeChar (c : Char) :
    ¬ ('<' ∈ escapeChar c) ∧ ¬ ('>' ∈ escapeChar c) := by
  by_cases h1 : c = '&'
  · subst h1; decide
  by_cases h2 : c = '<'
  · subst h2; decide
  by_cases h3 : c = '>'
  · subst h3; decide
  by_cases h4 : c = ' '
  · subst h4; decide
  simp only [escapeChar, h1, h2, h3, h4, if_false, List.mem_singleton]
  exact ⟨fun h => h2 h.symm, fun h => h3 h.symm⟩

theorem angle_not_mem_escapeHTML (s : JSStr) :
    ¬ ('<' ∈ escapeHTML s) ∧ ¬ ('>' ∈ escapeHTML s) := by
  induction s with
  | nil => exact ⟨List.not_mem_nil _, List.not_mem_nil _⟩
  | cons c cs ih =>
    have hc := angle_not_mem_escapeChar c
    simp only [escapeHTML, List.mem_append, not_or]
    exact ⟨⟨hc.1, ih.1⟩, hc.2, ih.2⟩

/-- Claim C3: all surface and reading text in `buildRubyHTML` output passes
through `escapeHTML`, which renders `&`, `<`, `>` as entities, so escaped
text never contains a raw angle bracket; in particular the token
`{surface: "<script>", reading: absent}` yields only escaped entities. -/
theorem escapeHTML_escapes_markup :
    (∀ s : JSStr,
      (escapeHTML s).contains '<' = false ∧ (escapeHTML s).contains '>' = false)
    ∧ escapeHTML ("&".data) = ("&amp;".data)
    ∧ escapeHTML ("<".data) = ("&lt;".data)
    ∧ escapeHTML (">".data) = ("&gt;".data)
    ∧ buildRubyHTML [{ surface_form := ("<script>".data), reading := none }]
        = ("&lt;script&gt;".data) := by
  refine ⟨fun s => ?_, by decide, by decide, by decide, by decide⟩
  have h := angle_not_mem_escapeHTML s
  constructor
  · simpa [List.contains, decide_eq_false_iff_not] using h.1
  · simpa [List.contains, decide_eq_false_iff_not] using h.2

/-- Claim C4: `containsKanji s` is true iff some character of `s` has its
code point in U+4E00-U+9FFF or U+3400-U+4DBF; it is a pure total function
(a Lean `def` defined for every string) with no error conditions. -/
theorem containsKanji_iff_exists_kanji (s : JSStr) :
    containsKanji s = true ↔
      ∃ c ∈ s, (0x4E00 ≤ c.toNat ∧ c.toNat ≤ 0x9FFF)
        ∨ (0x3400 ≤ c.toNat ∧ c.toNat ≤ 0x4DBF) := by
  simp [containsKanji, isKanjiChar, List.any_eq_true]

/-- Claim C5: `katakanaToHiragana` maps each character independently; a
character with code point in U+30A1-U+30F6 becomes the character at its
code point minus 0x60 and every other character passes through unchanged. -/
theorem katakanaToHiragana_charwise (s : JSStr) :
    katakanaToHiragana s =
      s.map (fun c =>
        if 0x30A1 ≤ c.toNat ∧ c.toNat ≤ 0x30F6 then Char.ofNat (c.toNat - 0x60) else c) := by
  rw [katakanaToHiragana_eq_map]
  congr 1
  funext c
  by_cases h : 0x30A1 ≤ c.toNat ∧ c.toNat ≤ 0x30F6
  · simp [isConvertibleKatakana, h.1, h.2, h]
  · have hb : isConvertibleKatakana c = false := by
      rw [← Bool.not_eq_true, isConvertibleKatakana_iff]; exact h
    simp [hb, h]

/-- Claim C7: reapplying `katakanaToHiragana` to its own output is a no-op. -/
theorem katakanaToHiragana_idem_on_output (s : JSStr) :
    katakanaToHiragana (katakanaToHiragana s) = katakanaToHiragana s := by
  induction s with
  | nil => rfl
  | cons c cs ih =>
    by_cases h : isConvertibleKatakana c = true
    · simp [katakanaToHiragana, h, ih, shifted_not_convertible c h]
    · have h' : isConvertibleKatakana c = false := by
        revert h; cases isConvertibleKatakana c <;> simp
      simp [katakanaToHiragana, h', ih]

/-- Claim C9: `katakanaToHiragana` distributes over concatenation and
preserves length: it is a strictly per-character map that never inserts,
deletes, or merges characters. -/
theorem katakanaToHiragana_append_length (a b : JSStr) :
    katakanaToHiragana (a ++ b) = katakanaToHiragana a ++ katakanaToHiragana b
    ∧ ∀ s : JSStr, (katakanaToHiragana s).length = s.length := by
  constructor
  · simp [katakanaToHiragana_eq_map]
  · intro s; simp [katakanaToHiragana_eq_map]

theorem specSegment_empty_surface (r : Option JSStr) :
    specSegment { surface_form := [], reading := r } = [] := by
  cases r <;> rfl

/-- Claim C8: `containsKanji`, `katakanaToHiragana` and `buildRubyHTML` are
total Lean functions; the empty token sequence yields the empty output, and
a token whose surface form is empty contributes no emitted text wherever it
occurs (such a surface has no kanji and escapes to nothing). -/
theorem buildRubyHTML_total_on_empty :
    buildRubyHTML [] = []
    ∧ ∀ (pre post : List Token) (r : Option JSStr),
        buildRubyHTML (pre ++ { surface_form := [], reading := r } :: post)
          = buildRubyHTML (pre ++ post) := by
  refine ⟨rfl, fun pre post r => ?_⟩
  simp [buildRubyHTML_eq_join, specSegment_empty_surface]

/-- Claim C2 is refuted by the code: in the Scenario 6 schedule, exactly one
underlying dictionary load is started (third component `1`), but the second
caller's promise fulfills immediately with null (`Settled.fulfilled none`)
while the first caller receives the built handle on success or the rejection
on failure — the two callers do not receive the same result. -/
theorem initTokenizer_second_caller_gets_null :
    concurrentInitScenario (Except.ok { id := 0 })
      = (Settled.fulfilled (some { id := 0 }), Settled.fulfilled none, 1)
    ∧ concurrentInitScenario (Except.error 7)
      = (Settled.rejected 7, Settled.fulfilled none, 1) :=
  ⟨rfl, rfl⟩

/-- Claim C6: when tokenizer initialization fails (the promise rejects), and
likewise on the fulfilled-with-null path, `annotateSelection` inserts no
markup and leaves the document unchanged. -/
theorem annotateSelection_no_partial_output (tokenize : Tokenizer → JSStr → List Token)
    (e : LoadError) (text : JSStr) :
    annotateSelection tokenize (Settled.rejected e) text = AnnotateOutcome.noChange
    ∧ annotateSelection tokenize (Settled.fulfilled none) text = AnnotateOutcome.noChange :=
  ⟨rfl, rfl⟩

/-- Claim C10: when a load that was started with no tokenizer present
completes with an error, the build callback restores the uninitialized
state (`tokenizer` null, `tokenizerLoading` false) and rejects, and a
subsequent `initTokenizer` call from that state starts a fresh load. -/
theorem initTokenizer_fresh_after_error (s : ContentState) (e : LoadError)
    (h : s.tokenizer = none) :
    (buildCallback s (Except.error e)).1 = initialContentState
    ∧ (buildCallback s (Except.error e)).2 = Settled.rejected e
    ∧ initTokenizer initialContentState
        = ({ tokenizer := none, tokenizerLoading := true }, InitStep.startLoad) := by
  obtain ⟨tk, ld⟩ := s
  subst h
  exact ⟨rfl, rfl, rfl⟩

theorem initTokenizer_fresh_after_error_witness :
    ({ tokenizer := none, tokenizerLoading := true } : ContentState).tokenizer = none
    ∧ ((buildCallback { tokenizer := none, tokenizerLoading := true }
          (Except.error 3)).1 = initialContentState
      ∧ (buildCallback { tokenizer := none, tokenizerLoading := true }
          (Except.error 3)).2 = Settled.rejected 3
      ∧ initTokenizer initialContentState
          = ({ tokenizer := none, tokenizerLoading := true }, InitStep.startLoad)) :=
  ⟨rfl, initTokenizer_fresh_after_error
    { tokenizer := none, tokenizerLoading := true } 3 rfl⟩
